import Mathlib

/-!
Verification of the tuturu signaling and credential-issuance core.

This file gives a shallow embedding, in Lean 4, of the server-side core of
the repository: the TURN credential issuer (src/app/src/server/turn.ts and
the Redis-backed variant), the room registry (src/app/src/server/rooms.ts),
the ICE configuration builder (server/ice.ts) and the WebSocket signaling
handler (src/app/src/server/websocket.ts).  JavaScript in-place mutation of
the room map is translated into explicit state passing; the outbound
WebSocket channel of a connection is identified by the connection id, and a
send becomes an element of an output trace.  Machine integers are Nat or
Int; byte values are Nat below 256.
-/

namespace Tuturu

/-! ## Bytes, SHA-1, HMAC-SHA1 and base64

The TypeScript code computes credentials with Bun.CryptoHasher: an
HMAC-SHA1 keyed hash rendered as base64.  Those platform primitives are
embedded here as executable reference implementations (RFC 3174, RFC 2104,
RFC 4648) over lists of byte values.
-/

/-- Truncation to a 32-bit word. -/
def w32 (n : Nat) : Nat := n % 4294967296

/-- Left rotation of a 32-bit word by b bits. -/
def rotl32 (b n : Nat) : Nat := w32 ((n <<< b) ||| (n >>> (32 - b)))

/-- UTF-8 encoding of one character as bytes. -/
def utf8Char (c : Char) : List Nat :=
  let n := c.toNat
  if n < 128 then [n]
  else if n < 2048 then [192 + n / 64, 128 + n % 64]
  else if n < 65536 then [224 + n / 4096, 128 + (n / 64) % 64, 128 + n % 64]
  else [240 + n / 262144, 128 + (n / 4096) % 64, 128 + (n / 64) % 64, 128 + n % 64]

/-- UTF-8 encoding of a string as a list of bytes. -/
def utf8Encode (s : String) : List Nat := (s.data.map utf8Char).flatten

/-- SHA-1 padding: append 0x80, zero bytes up to 56 mod 64, then the
64-bit big-endian bit length. -/
def sha1pad (ms : List Nat) : List Nat :=
  let bitLen := 8 * ms.length
  let padZeros := (119 - ms.length % 64) % 64
  ms ++ 128 :: List.replicate padZeros 0 ++
    (List.range 8).map (fun i => (bitLen >>> (8 * (7 - i))) % 256)

/-- Split a byte list into 64-byte blocks (fuel-based so that the kernel
can evaluate it). -/
def chunksGo : Nat → List Nat → List (List Nat)
  | 0, _ => []
  | fuel + 1, ms => if ms.isEmpty then [] else ms.take 64 :: chunksGo fuel (ms.drop 64)

/-- Split a byte list into 64-byte blocks. -/
def chunks (ms : List Nat) : List (List Nat) := chunksGo (ms.length + 1) ms

/-- Big-endian 32-bit words from bytes. -/
def toWords : List Nat → List Nat
  | a :: b :: c :: d :: rest => (((a * 256 + b) * 256 + c) * 256 + d) :: toWords rest
  | _ => []

/-- SHA-1 round function, by round index. -/
def sha1f (i b c d : Nat) : Nat :=
  if i < 20 then (b &&& c) ||| ((4294967295 ^^^ b) &&& d)
  else if i < 40 then b ^^^ c ^^^ d
  else if i < 60 then (b &&& c) ||| (b &&& d) ||| (c &&& d)
  else b ^^^ c ^^^ d

/-- SHA-1 round constant, by round index. -/
def sha1k (i : Nat) : Nat :=
  if i < 20 then 1518500249
  else if i < 40 then 1859775393
  else if i < 60 then 2400959708
  else 3395469782

/-- Extend the 16 words of a block to the 80-word message schedule. -/
def sha1Extend (ws : List Nat) : List Nat :=
  (List.range 64).foldl
    (fun acc _ =>
      let n := acc.length
      acc ++ [rotl32 1 ((acc.getD (n - 3) 0) ^^^ (acc.getD (n - 8) 0) ^^^
        (acc.getD (n - 14) 0) ^^^ (acc.getD (n - 16) 0))])
    ws

/-- One SHA-1 round on the five-word working state. -/
def sha1Round (st : Nat × Nat × Nat × Nat × Nat) (iw : Nat × Nat) :
    Nat × Nat × Nat × Nat × Nat :=
  match st, iw with
  | (a, b, c, d, e), (i, w) =>
      (w32 (rotl32 5 a + sha1f i b c d + e + sha1k i + w), a, rotl32 30 b, c, d)

/-- SHA-1 compression of one 64-byte block into the running hash state. -/
def sha1Compress (hs : List Nat) (chunk : List Nat) : List Nat :=
  let ws := sha1Extend (toWords chunk)
  let a0 := hs.getD 0 0
  let b0 := hs.getD 1 0
  let c0 := hs.getD 2 0
  let d0 := hs.getD 3 0
  let e0 := hs.getD 4 0
  match ((List.range 80).zip ws).foldl sha1Round (a0, b0, c0, d0, e0) with
  | (a, b, c, d, e) =>
      [w32 (a0 + a), w32 (b0 + b), w32 (c0 + c), w32 (d0 + d), w32 (e0 + e)]

/-- SHA-1 initial state. -/
def sha1H0 : List Nat := [1732584193, 4023233417, 2562383102, 271733878, 3285377520]

/-- SHA-1 digest (20 bytes) of a byte list. -/
def sha1 (ms : List Nat) : List Nat :=
  let hs := (chunks (sha1pad ms)).foldl sha1Compress sha1H0
  hs.foldr
    (fun w acc => (w >>> 24) % 256 :: (w >>> 16) % 256 :: (w >>> 8) % 256 :: w % 256 :: acc)
    []

/-- HMAC-SHA1 (RFC 2104) of a message under a key, both byte lists. -/
def hmacSha1 (key msg : List Nat) : List Nat :=
  let k0 := if key.length > 64 then sha1 key else key
  let k1 := k0 ++ List.replicate (64 - k0.length) 0
  let ipadKey := k1.map (fun b => b ^^^ 54)
  let opadKey := k1.map (fun b => b ^^^ 92)
  sha1 (opadKey ++ sha1 (ipadKey ++ msg))

/-- The base64 alphabet. -/
def b64Alphabet : String :=
  "ABCDEFGHIJKLMNOPQRSTUVWXYZabcdefghijklmnopqrstuvwxyz0123456789+/"

/-- Character of the base64 alphabet at a 6-bit index. -/
def b64Char (n : Nat) : Char := b64Alphabet.data.getD n (Char.ofNat 65)

/-- Standard base64 encoding (RFC 4648, with padding) of a byte list. -/
def base64Encode : List Nat → String
  | [] => ""
  | [a] => String.mk [b64Char (a >>> 2), b64Char ((a % 4) <<< 4)] ++ "=="
  | [a, b] =>
      String.mk [b64Char (a >>> 2), b64Char (((a % 4) <<< 4) + (b >>> 4)),
        b64Char ((b % 16) <<< 2)] ++ "="
  | a :: b :: c :: rest =>
      String.mk [b64Char (a >>> 2), b64Char (((a % 4) <<< 4) + (b >>> 4)),
        b64Char (((b % 16) <<< 2) + (c >>> 6)), b64Char (c % 64)] ++ base64Encode rest

/-! ## TURN credential issuer (server/turn.ts, and the Redis variant)

generateTurnCredentials is identical in src/app/src/server/turn.ts and in
the Redis-backed module: it throws when config.turnSecret is falsy
(absent or empty), and otherwise derives the coturn REST API credential.
The throw is embedded as Option.none; Date.now()/1000 becomes the
explicit nowSeconds argument.
-/

/-- Credential TTL in seconds (4 hours), TURN_CREDENTIAL_TTL_SECONDS in
the source. -/
def TURN_CREDENTIAL_TTL_SECONDS : Nat := 4 * 60 * 60

/-- Ephemeral TURN credentials with expiry tracking. -/
structure TurnCredentials where
  username : String
  credential : String
  expiresAt : Nat
deriving Repr, DecidableEq

/-- Truthiness of an optional string, as JavaScript sees it: undefined
and the empty string are falsy. -/
def strTruthy : Option String → Bool
  | none => false
  | some s => !(s == "")

/-- generateTurnCredentials from turn.ts: username is
"expiryTimestamp:clientId", credential is base64 of the HMAC-SHA1 of the
username under the shared secret.  Returns none where the source throws
(TURN_SECRET not configured). -/
def generateTurnCredentials (turnSecret : Option String) (clientId : String)
    (nowSeconds : Nat) : Option TurnCredentials :=
  if !(strTruthy turnSecret) then none
  else
    let secret := turnSecret.getD ""
    let expiresAt := nowSeconds + TURN_CREDENTIAL_TTL_SECONDS
    let username := toString expiresAt ++ ":" ++ clientId
    let credential := base64Encode (hmacSha1 (utf8Encode secret) (utf8Encode username))
    some { username := username, credential := credential, expiresAt := expiresAt }

/-- The credential record generateTurnCredentials produces on its
success path, written out: used to state and witness its defining
equations. -/
def expectedTurnCredentials (secret clientId : String) (nowSeconds : Nat) :
    TurnCredentials :=
  { username := toString (nowSeconds + TURN_CREDENTIAL_TTL_SECONDS) ++ ":" ++ clientId,
    credential := base64Encode (hmacSha1 (utf8Encode secret)
      (utf8Encode (toString (nowSeconds + TURN_CREDENTIAL_TTL_SECONDS) ++ ":" ++ clientId))),
    expiresAt := nowSeconds + TURN_CREDENTIAL_TTL_SECONDS }

/-- Redis key namespace for revoked credentials, the REDIS_KEY_PREFIX
constant of the source. -/
def redisRevokedKeyBase : String := "turn:revoked:"

/-- One SET call issued to the revocation store: key, value, and the
expiry (EX) in seconds passed with it. -/
structure StoreWrite where
  key : String
  value : String
  ttlSeconds : Int
deriving Repr, DecidableEq

/-- revokeTurnCredentials from the Redis-backed TURN module: the list of
writes the call issues to the store.  Returns no writes when the client
is unavailable, or when the remaining TTL (expiresAt minus now, in
seconds) is not positive; otherwise issues exactly one SET with EX equal
to the remaining TTL. -/
def revokeTurnCredentials (redisAvailable : Bool) (username : String)
    (expiresAt nowSeconds : Int) : List StoreWrite :=
  if !redisAvailable then []
  else
    let remainingTtl := expiresAt - nowSeconds
    if remainingTtl ≤ 0 then []
    else [{ key := redisRevokedKeyBase ++ username, value := "1", ttlSeconds := remainingTtl }]

/-! ## Room registry (server/rooms.ts)

The module-level Map from PIN to Room becomes an explicit association
list threaded through the operations; the ServerWebSocket handle of a
client is represented by its connection id, and a send to a socket
becomes a pair of the recipient id and the outbound frame.
-/

/-- Client connection information: connection id and the PIN recorded in
its ClientData. -/
structure Client where
  id : String
  pin : String
deriving Repr, DecidableEq

/-- One entry of the iceServers array sent to a client: urls, and the
optional username and credential fields. -/
structure IceServerConfig where
  urls : String
  username : Option String := none
  credential : Option String := none
deriving Repr, DecidableEq

/-- Outbound (server to client) frames of the wire protocol. -/
inductive OutMsg where
  | joinPinAck (iceServers : List IceServerConfig) (iceTransportPolicy : String)
  | peerJoined
  | offer (data : String)
  | answer (data : String)
  | iceCandidate (data : String)
  | peerLeft
  | error (msg : String)
deriving Repr, DecidableEq

/-- Room for PIN-based matching. -/
structure Room where
  pin : String
  clients : List Client
  createdAt : Nat
deriving Repr, DecidableEq

/-- The rooms map, Map(PIN, Room) in the source, as an association list
in insertion order. -/
abbrev RoomMap := List (String × Room)

/-- Map.get: the first binding of the key, if any. -/
def mapGet : RoomMap → String → Option Room
  | [], _ => none
  | (k, v) :: rest, pin => if k = pin then some v else mapGet rest pin

/-- Map.set: replace the binding in place, or append a new one. -/
def mapSet : RoomMap → String → Room → RoomMap
  | [], pin, r => [(pin, r)]
  | (k, v) :: rest, pin, r =>
      if k = pin then (k, r) :: rest else (k, v) :: mapSet rest pin r

/-- Map.delete: remove the binding of the key. -/
def mapDelete : RoomMap → String → RoomMap
  | [], _ => []
  | (k, v) :: rest, pin => if k = pin then rest else (k, v) :: mapDelete rest pin

/-- getOrCreateRoom from rooms.ts.  Date.now() becomes the explicit now
argument; the returned room and the updated map are both given, the TS
return value being a reference into the map. -/
def getOrCreateRoom (rooms : RoomMap) (pin : String) (now : Nat) : Room × RoomMap :=
  match mapGet rooms pin with
  | some room => (room, rooms)
  | none =>
      let room : Room := { pin := pin, clients := [], createdAt := now }
      (room, mapSet rooms pin room)

/-- addClientToRoom from rooms.ts: false and the room untouched when the
room already holds 2 clients, otherwise true and the client appended.
The caller writes the updated room back at its key, which is what the
in-place push on the map-held reference does in the source. -/
def addClientToRoom (room : Room) (client : Client) : Bool × Room :=
  if room.clients.length ≥ 2 then (false, room)
  else (true, { room with clients := room.clients ++ [client] })

/-- The findIndex-then-splice step of removeClientFromRoom: remove the
first client with the given id, or leave the list unchanged when the id
is absent. -/
def removeFirstById : List Client → String → List Client
  | [], _ => []
  | c :: rest, cid => if c.id = cid then rest else c :: removeFirstById rest cid

/-- removeClientFromRoom from rooms.ts: look the room up by the client
PIN; if absent, return.  Remove the client by id; if exactly one client
remains after that, send it peer-left; if none remain, delete the room
from the map. -/
def removeClientFromRoom (rooms : RoomMap) (client : Client) :
    RoomMap × List (String × OutMsg) :=
  match mapGet rooms client.pin with
  | none => (rooms, [])
  | some room =>
      let clients1 := removeFirstById room.clients client.id
      let room1 := { room with clients := clients1 }
      let rooms1 := mapSet rooms client.pin room1
      let sends :=
        match clients1 with
        | [remaining] => [(remaining.id, OutMsg.peerLeft)]
        | _ => []
      let rooms2 := if clients1.length = 0 then mapDelete rooms1 room.pin else rooms1
      (rooms2, sends)

/-- getPeer from rooms.ts: the first client of the room of the caller
PIN whose id differs from the caller id, if any. -/
def getPeer (rooms : RoomMap) (client : Client) : Option Client :=
  match mapGet rooms client.pin with
  | none => none
  | some room => room.clients.find? (fun c => !(c.id == client.id))

/-! ## Configuration and ICE builder (config.ts, server/ice.ts) -/

/-- The part of the validated configuration the signaling core reads. -/
structure Config where
  stunServers : List String
  turnSecret : Option String
  domain : Option String
  forceRelay : Bool
deriving Repr, DecidableEq

/-- isTurnConfigured from config.ts: turnSecret and domain both truthy. -/
def isTurnConfigured (cfg : Config) : Bool :=
  strTruthy cfg.turnSecret && strTruthy cfg.domain

/-- buildIceServers from server/ice.ts: the STUN entries from the
configuration, then, when TURN is configured, four TURN entries sharing
one freshly generated ephemeral credential, in DPI-bypass priority
order.  The none branch of the credential generation is unreachable
because isTurnConfigured implies a truthy secret. -/
def buildIceServers (cfg : Config) (clientId : String) (nowSeconds : Nat) :
    List IceServerConfig :=
  let iceServers : List IceServerConfig := cfg.stunServers.map (fun url => { urls := url })
  if isTurnConfigured cfg then
    match generateTurnCredentials cfg.turnSecret clientId nowSeconds with
    | none => iceServers
    | some creds =>
        let domain := "t." ++ cfg.domain.getD ""
        iceServers ++
          [ { urls := "turns:" ++ domain ++ ":443?transport=tcp",
              username := some creds.username, credential := some creds.credential },
            { urls := "turns:" ++ domain ++ ":5349?transport=tcp",
              username := some creds.username, credential := some creds.credential },
            { urls := "turn:" ++ domain ++ ":3478?transport=tcp",
              username := some creds.username, credential := some creds.credential },
            { urls := "turn:" ++ domain ++ ":3478?transport=udp",
              username := some creds.username, credential := some creds.credential } ]
  else iceServers

/-! ## Signaling protocol handler (server/websocket.ts)

handleMessage receives raw bytes and runs JSON.parse on them inside its
try block.  The embedding classifies the raw input up front, mirroring
the case analysis the source performs: parseFailure stands for input on
which JSON.parse throws a SyntaxError (carrying the parser message),
missingType for a parsed message whose type field is falsy, unknownType
for a recognized-shape message with an unrecognized type, and the five
protocol messages carry their fields.  The opaque offer, answer and
ice-candidate payloads are an uninterpreted String.
-/

/-- Inbound (client to server) messages, classified as the handler
classifies them. -/
inductive InMsg where
  | joinPin (pin : Option String)
  | offer (data : String)
  | answer (data : String)
  | iceCandidate (data : String)
  | leave
  | parseFailure (errMsg : String)
  | missingType
  | unknownType (t : String)
deriving Repr, DecidableEq

/-- The exceptions the handler body can throw: the three SignalingError
subclasses of types.ts, plus the SyntaxError JSON.parse raises, which is
not a SignalingError. -/
inductive ServerError where
  | invalidPin (pin : String)
  | roomFull (pin : String)
  | invalidMessage (reason : String)
  | jsParseError (msg : String)
deriving Repr, DecidableEq

/-- The error.message strings constructed in types.ts (a SyntaxError
carries the parser message). -/
def errorText : ServerError → String
  | .invalidPin pin => "Invalid PIN format: " ++ pin ++ ". Must be 6 digits"
  | .roomFull pin => "Room " ++ pin ++ " is full (maximum 2 clients)"
  | .invalidMessage reason => "Invalid message: " ++ reason
  | .jsParseError msg => msg

/-- The instanceof test of the catch clause: only the three
SignalingError subclasses trigger ws.close(1008). -/
def isCriticalError : ServerError → Bool
  | .jsParseError _ => false
  | _ => true

/-- validatePin from websocket.ts tests the PIN against the regular
expression of exactly six digits; this is that test as a predicate. -/
def isValidPin (pin : String) : Bool :=
  pin.length == 6 && pin.data.all Char.isDigit

/-- Falsiness of the optional pin field, as the !message.pin check sees
it. -/
def optStrFalsy : Option String → Bool
  | none => true
  | some s => s == ""

/-- Result of handling one inbound event on a connection: the rooms map,
the connection ClientData (its pin field is mutated by join), the
outbound frames in order, each with its recipient connection id, and
whether the handler closed the connection with status 1008. -/
structure HandleResult where
  rooms : RoomMap
  client : Client
  sent : List (String × OutMsg)
  closed : Bool
deriving Repr, DecidableEq

/-- The try-block body of handleMessage: state and sends produced so
far, plus the exception if one was thrown.  State changes made before a
throw persist, exactly as they do across a JavaScript throw. -/
def handleMessageBody (cfg : Config) (now : Nat) (rooms : RoomMap) (cd : Client)
    (msg : InMsg) : RoomMap × Client × List (String × OutMsg) × Option ServerError :=
  match msg with
  | .parseFailure m => (rooms, cd, [], some (.jsParseError m))
  | .missingType => (rooms, cd, [], some (.invalidMessage "Missing message type"))
  | .unknownType _ => (rooms, cd, [], some (.invalidMessage "Unknown message type"))
  | .joinPin pinOpt =>
      if optStrFalsy pinOpt then
        (rooms, cd, [], some (.invalidMessage "Missing PIN in join-pin message"))
      else
        let pin := pinOpt.getD ""
        if !isValidPin pin then (rooms, cd, [], some (.invalidPin pin))
        else
          match getOrCreateRoom rooms pin now with
          | (room, rooms1) =>
              let cd1 : Client := { cd with pin := pin }
              match addClientToRoom room cd1 with
              | (false, _) => (rooms1, cd1, [], some (.roomFull room.pin))
              | (true, room1) =>
                  let rooms2 := mapSet rooms1 pin room1
                  let ack := (cd1.id, OutMsg.joinPinAck (buildIceServers cfg cd1.id now)
                    (if cfg.forceRelay then "relay" else "all"))
                  let peerMsgs :=
                    match getPeer rooms2 cd1 with
                    | some peer => [(peer.id, OutMsg.peerJoined)]
                    | none => []
                  (rooms2, cd1, ack :: peerMsgs, none)
  | .offer d =>
      match getPeer rooms cd with
      | none => (rooms, cd, [], none)
      | some peer => (rooms, cd, [(peer.id, OutMsg.offer d)], none)
  | .answer d =>
      match getPeer rooms cd with
      | none => (rooms, cd, [], none)
      | some peer => (rooms, cd, [(peer.id, OutMsg.answer d)], none)
  | .iceCandidate d =>
      match getPeer rooms cd with
      | none => (rooms, cd, [], none)
      | some peer => (rooms, cd, [(peer.id, OutMsg.iceCandidate d)], none)
  | .leave =>
      match removeClientFromRoom rooms cd with
      | (rooms1, sends) => (rooms1, cd, sends, none)

/-- handleMessage from websocket.ts: run the body; on an exception, send
the offending connection an error frame with the exception message, then
close with status 1008 exactly when the exception is one of the three
SignalingError subclasses. -/
def handleMessage (cfg : Config) (now : Nat) (rooms : RoomMap) (cd : Client)
    (msg : InMsg) : HandleResult :=
  match handleMessageBody cfg now rooms cd msg with
  | (rooms1, cd1, sends, none) =>
      { rooms := rooms1, client := cd1, sent := sends, closed := false }
  | (rooms1, cd1, sends, some e) =>
      { rooms := rooms1, client := cd1,
        sent := sends ++ [(cd1.id, OutMsg.error (errorText e))],
        closed := isCriticalError e }

/-- handleClose from websocket.ts: remove the client of the closed
connection from its room. -/
def handleClose (rooms : RoomMap) (cd : Client) : RoomMap × List (String × OutMsg) :=
  removeClientFromRoom rooms cd

/-! ## Trace and registry observations used by the claims -/

/-- Whether a frame is peer-joined. -/
def isPeerJoined : OutMsg → Bool
  | .peerJoined => true
  | _ => false

/-- Whether a frame is peer-left. -/
def isPeerLeft : OutMsg → Bool
  | .peerLeft => true
  | _ => false

/-- The peer-joined frames of a trace, with their recipients. -/
def peerJoinedFrames (sent : List (String × OutMsg)) : List (String × OutMsg) :=
  sent.filter (fun p => isPeerJoined p.2)

/-- The peer-left frames of a trace, with their recipients. -/
def peerLeftFrames (sent : List (String × OutMsg)) : List (String × OutMsg) :=
  sent.filter (fun p => isPeerLeft p.2)

/-- Whether a connection id occupies any room of the registry. -/
def isOccupant (rooms : RoomMap) (cid : String) : Bool :=
  rooms.any (fun kv => kv.2.clients.any (fun c => c.id == cid))

/-! ## Registry step relation for the reachability invariant

The three registry operations as they are reachable from the handler:
getOrCreateRoom on any pin, addClientToRoom on a room currently held by
the map (the source always passes the reference getOrCreateRoom returned,
writing the push back in place), and removeClientFromRoom on any client.
-/

/-- addClientToRoom applied to the room the map holds at a pin, with the
in-place mutation reflected in the map. -/
def addOccupantStep (s : RoomMap) (pin : String) (c : Client) : RoomMap :=
  match mapGet s pin with
  | none => s
  | some room =>
      match addClientToRoom room c with
      | (true, room1) => mapSet s pin room1
      | (false, _) => s

/-- One registry mutation. -/
inductive RegStep : RoomMap → RoomMap → Prop where
  | create (s : RoomMap) (pin : String) (now : Nat) :
      RegStep s (getOrCreateRoom s pin now).2
  | add (s : RoomMap) (pin : String) (c : Client) :
      RegStep s (addOccupantStep s pin c)
  | remove (s : RoomMap) (c : Client) :
      RegStep s (removeClientFromRoom s c).1

/-- Registry states reachable from the empty map by the registry
operations. -/
inductive Reachable : RoomMap → Prop where
  | init : Reachable []
  | step {s t : RoomMap} : Reachable s → RegStep s t → Reachable t

/-! ## Concrete scenario states used by counterexamples and witnesses -/

/-- A configuration with no TURN relay configured. -/
def cfg0 : Config :=
  { stunServers := [], turnSecret := none, domain := none, forceRelay := false }

/-- Connection a joins PIN 123456 on a fresh registry. -/
def demoJoinA : HandleResult :=
  handleMessage cfg0 0 [] { id := "a", pin := "" } (.joinPin (some "123456"))

/-- Connection b then joins the same PIN. -/
def demoJoinB : HandleResult :=
  handleMessage cfg0 1 demoJoinA.rooms { id := "b", pin := "" } (.joinPin (some "123456"))

/-- b sends an explicit leave. -/
def demoLeaveB : HandleResult :=
  handleMessage cfg0 2 demoJoinB.rooms demoJoinB.client .leave

/-- The transport of b then closes. -/
def demoCloseB : RoomMap × List (String × OutMsg) :=
  handleClose demoLeaveB.rooms demoJoinB.client

/-- Connection c tries to join the full room. -/
def demoJoinC : HandleResult :=
  handleMessage cfg0 2 demoJoinB.rooms { id := "c", pin := "" } (.joinPin (some "123456"))

/-- The rejected connection c then sends an offer. -/
def demoOfferC : HandleResult :=
  handleMessage cfg0 3 demoJoinC.rooms demoJoinC.client (.offer "sdp-offer")

/-- Occupant a as seated by the scenario. -/
def clA : Client := { id := "a", pin := "123456" }

/-- Occupant b as seated by the scenario. -/
def clB : Client := { id := "b", pin := "123456" }

/-- The room of the scenario with both occupants seated. -/
def roomAB : Room := { pin := "123456", clients := [clA, clB], createdAt := 0 }

/-- The room of the scenario with only occupant a seated. -/
def roomA : Room := { pin := "123456", clients := [clA], createdAt := 0 }

/-! ## Association-list map lemmas -/

theorem mapGet_mapSet_self (m : RoomMap) (p : String) (r : Room) :
    mapGet (mapSet m p r) p = some r := by
  induction m with
  | nil => simp [mapSet, mapGet]
  | cons kv rest ih =>
      obtain ⟨k, v⟩ := kv
      by_cases h : k = p
      · simp [mapSet, mapGet, h]
      · simp [mapSet, mapGet, h, ih]

theorem mapSet_mapSet_self (m : RoomMap) (p : String) (r1 r2 : Room) :
    mapSet (mapSet m p r1) p r2 = mapSet m p r2 := by
  induction m with
  | nil => simp [mapSet]
  | cons kv rest ih =>
      obtain ⟨k, v⟩ := kv
      by_cases h : k = p
      · simp [mapSet, h]
      · simp [mapSet, h, ih]

theorem mapSet_same {m : RoomMap} {p : String} {r : Room}
    (h : mapGet m p = some r) : mapSet m p r = m := by
  induction m with
  | nil => simp [mapGet] at h
  | cons kv rest ih =>
      obtain ⟨k, v⟩ := kv
      by_cases hk : k = p
      · rw [mapGet, if_pos hk] at h
        obtain rfl := Option.some.inj h
        simp [mapSet, hk]
      · rw [mapGet, if_neg hk] at h
        simp [mapSet, hk, ih h]

theorem mapGet_mem {m : RoomMap} {p : String} {r : Room}
    (h : mapGet m p = some r) : (p, r) ∈ m := by
  induction m with
  | nil => simp [mapGet] at h
  | cons kv rest ih =>
      obtain ⟨k, v⟩ := kv
      by_cases hk : k = p
      · rw [mapGet, if_pos hk] at h
        obtain rfl := Option.some.inj h
        subst hk
        exact List.mem_cons_self _ _
      · rw [mapGet, if_neg hk] at h
        exact List.mem_cons_of_mem _ (ih h)

theorem mem_mapSet {kv : String × Room} {m : RoomMap} {p : String} {r : Room}
    (h : kv ∈ mapSet m p r) : kv = (p, r) ∨ kv ∈ m := by
  induction m with
  | nil => simp [mapSet] at h; exact Or.inl h
  | cons hd rest ih =>
      obtain ⟨k, v⟩ := hd
      by_cases hk : k = p
      · rw [mapSet, if_pos hk] at h
        rcases List.mem_cons.mp h with h1 | h2
        · left; rw [h1, hk]
        · right; exact List.mem_cons_of_mem _ h2
      · rw [mapSet, if_neg hk] at h
        rcases List.mem_cons.mp h with h1 | h2
        · right; rw [h1]; exact List.mem_cons_self _ _
        · rcases ih h2 with h3 | h4
          · left; exact h3
          · right; exact List.mem_cons_of_mem _ h4

theorem mem_mapDelete {kv : String × Room} {m : RoomMap} {p : String}
    (h : kv ∈ mapDelete m p) : kv ∈ m := by
  induction m with
  | nil => simp [mapDelete] at h
  | cons hd rest ih =>
      obtain ⟨k, v⟩ := hd
      by_cases hk : k = p
      · rw [mapDelete, if_pos hk] at h
        exact List.mem_cons_of_mem _ h
      · rw [mapDelete, if_neg hk] at h
        rcases List.mem_cons.mp h with h1 | h2
        · rw [h1]; exact List.mem_cons_self _ _
        · exact List.mem_cons_of_mem _ (ih h2)

theorem mem_keys_mapSet {q : String} {m : RoomMap} {p : String} {r : Room}
    (h : q ∈ (mapSet m p r).map Prod.fst) : q ∈ m.map Prod.fst ∨ q = p := by
  rcases List.mem_map.mp h with ⟨kv, hkv, hq⟩
  rcases mem_mapSet hkv with h1 | h2
  · right; rw [← hq, h1]
  · left; exact List.mem_map.mpr ⟨kv, h2, hq⟩

theorem nodup_keys_mapSet {m : RoomMap} {p : String} {r : Room}
    (h : (m.map Prod.fst).Nodup) : ((mapSet m p r).map Prod.fst).Nodup := by
  induction m with
  | nil => simp [mapSet]
  | cons hd rest ih =>
      obtain ⟨k, v⟩ := hd
      rw [List.map_cons, List.nodup_cons] at h
      by_cases hk : k = p
      · rw [mapSet, if_pos hk, List.map_cons, List.nodup_cons]
        exact ⟨h.1, h.2⟩
      · rw [mapSet, if_neg hk, List.map_cons, List.nodup_cons]
        refine ⟨fun hmem => ?_, ih h.2⟩
        rcases mem_keys_mapSet hmem with h1 | h2
        · exact h.1 h1
        · exact hk h2

theorem mapGet_eq_none_of_keys_notMem {m : RoomMap} {p : String}
    (h : p ∉ m.map Prod.fst) : mapGet m p = none := by
  induction m with
  | nil => rfl
  | cons hd rest ih =>
      obtain ⟨k, v⟩ := hd
      rw [List.map_cons, List.mem_cons] at h
      push_neg at h
      rw [mapGet, if_neg (fun hk => h.1 hk.symm)]
      exact ih h.2

theorem mapGet_mapDelete_self {m : RoomMap} (p : String)
    (h : (m.map Prod.fst).Nodup) : mapGet (mapDelete m p) p = none := by
  induction m with
  | nil => rfl
  | cons hd rest ih =>
      obtain ⟨k, v⟩ := hd
      rw [List.map_cons, List.nodup_cons] at h
      by_cases hk : k = p
      · rw [mapDelete, if_pos hk]
        subst hk
        exact mapGet_eq_none_of_keys_notMem h.1
      · rw [mapDelete, if_neg hk, mapGet, if_neg hk]
        exact ih h.2

theorem removeFirstById_length_le (l : List Client) (cid : String) :
    (removeFirstById l cid).length ≤ l.length := by
  induction l with
  | nil => simp [removeFirstById]
  | cons c rest ih =>
      by_cases h : c.id = cid
      · rw [removeFirstById, if_pos h]
        exact Nat.le_succ _
      · rw [removeFirstById, if_neg h]
        exact Nat.succ_le_succ ih

theorem isValidPin_ne_empty {pin : String} (h : isValidPin pin = true) :
    (pin == "") = false := by
  rcases eq_or_ne pin "" with rfl | hne
  · exact absurd h (by decide)
  · simp [hne]

/-! ## Handler helper lemmas -/

/-- A join with a valid PIN into a registry where the PIN has no room:
the room is created, the joiner is seated alone, it receives only its
join-pin configuration frame, and nobody receives peer-joined. -/
theorem join_fresh (cfg : Config) (t : Nat) (s : RoomMap) (cd : Client) (pin : String)
    (hpin : isValidPin pin = true) (hfresh : mapGet s pin = none) :
    handleMessage cfg t s cd (.joinPin (some pin)) =
      { rooms := mapSet s pin { pin := pin, clients := [{ id := cd.id, pin := pin }], createdAt := t },
        client := { id := cd.id, pin := pin },
        sent := [(cd.id, OutMsg.joinPinAck (buildIceServers cfg cd.id t)
          (if cfg.forceRelay then "relay" else "all"))],
        closed := false } := by
  have hempty := isValidPin_ne_empty hpin
  simp [handleMessage, handleMessageBody, optStrFalsy, hempty, hpin, getOrCreateRoom,
    hfresh, addClientToRoom, mapSet_mapSet_self, getPeer, mapGet_mapSet_self, List.find?]

/-- A join with a valid PIN into a room holding exactly one occupant
with a different id: the joiner is appended, receives its configuration
frame, and the occupant seated first receives peer-joined while the
joiner does not. -/
theorem join_second (cfg : Config) (t : Nat) (s : RoomMap) (pin ia ib pb : String) (t0 : Nat)
    (hpin : isValidPin pin = true)
    (hroom : mapGet s pin = some { pin := pin, clients := [{ id := ia, pin := pin }], createdAt := t0 })
    (hne : ia ≠ ib) :
    handleMessage cfg t s { id := ib, pin := pb } (.joinPin (some pin)) =
      { rooms := mapSet s pin
          { pin := pin, clients := [{ id := ia, pin := pin }, { id := ib, pin := pin }], createdAt := t0 },
        client := { id := ib, pin := pin },
        sent := [(ib, OutMsg.joinPinAck (buildIceServers cfg ib t)
            (if cfg.forceRelay then "relay" else "all")),
          (ia, OutMsg.peerJoined)],
        closed := false } := by
  have hempty := isValidPin_ne_empty hpin
  have hia : (ia == ib) = false := by simp [hne]
  simp [handleMessage, handleMessageBody, optStrFalsy, hempty, hpin, getOrCreateRoom,
    hroom, addClientToRoom, getPeer, mapGet_mapSet_self, List.find?, hia]

/-- Removing the second-seated occupant of a two-client room: the first
occupant remains and receives peer-left, and the room stays in the map
with one client. -/
theorem removeClientFromRoom_second (s : RoomMap) (pin ia ib : String) (t0 : Nat)
    (hroom : mapGet s pin =
      some { pin := pin, clients := [{ id := ia, pin := pin }, { id := ib, pin := pin }], createdAt := t0 })
    (hne : ia ≠ ib) :
    removeClientFromRoom s { id := ib, pin := pin } =
      (mapSet s pin { pin := pin, clients := [{ id := ia, pin := pin }], createdAt := t0 },
        [(ia, OutMsg.peerLeft)]) := by
  simp [removeClientFromRoom, hroom, removeFirstById, hne]

/-- Removing an id that is not seated in a single-occupant room: the
registry is unchanged (nothing is spliced out, and writing the room back
is the identity), yet the remaining occupant still receives peer-left,
because the notification is guarded only by the occupant count after the
call. -/
theorem removeClientFromRoom_absent (s : RoomMap) (pin ia ib : String) (t0 : Nat)
    (hroom : mapGet s pin =
      some { pin := pin, clients := [{ id := ia, pin := pin }], createdAt := t0 })
    (hne : ia ≠ ib) :
    removeClientFromRoom s { id := ib, pin := pin } = (s, [(ia, OutMsg.peerLeft)]) := by
  have hset : mapSet s pin
      ({ pin := pin, clients := [{ id := ia, pin := pin }], createdAt := t0 } : Room) = s :=
    mapSet_same hroom
  simp [removeClientFromRoom, hroom, removeFirstById, hne, hset]

/-- Removing the last occupant of a room: no notification is sent and
the room is deleted from the map. -/
theorem removeClientFromRoom_last (s : RoomMap) (pin ia : String) (t0 : Nat)
    (hroom : mapGet s pin =
      some { pin := pin, clients := [{ id := ia, pin := pin }], createdAt := t0 })
    (hnodup : (s.map Prod.fst).Nodup) :
    (removeClientFromRoom s { id := ia, pin := pin }).2 = [] ∧
    mapGet (removeClientFromRoom s { id := ia, pin := pin }).1 pin = none := by
  have hdel : mapGet (mapDelete (mapSet s pin
      { pin := pin, clients := [], createdAt := t0 }) pin) pin = none :=
    mapGet_mapDelete_self pin (nodup_keys_mapSet hnodup)
  simp [removeClientFromRoom, hroom, removeFirstById, hdel]

set_option maxRecDepth 100000 in
/-- The embedded SHA-1 reproduces the RFC 3174 test vector for "abc". -/
theorem sha1_abc_vector :
    base64Encode (sha1 (utf8Encode "abc")) = "qZk+NkcGgWq6PiVxeFDCbJzQ2J0=" := by decide

set_option maxRecDepth 100000 in
/-- The embedded HMAC-SHA1 reproduces the standard quick-brown-fox test
vector. -/
theorem hmacSha1_fox_vector :
    base64Encode (hmacSha1 (utf8Encode "key")
      (utf8Encode "The quick brown fox jumps over the lazy dog")) =
    "3nybhbi3iqa8ino29wqQcBydtNk=" := by decide

/-! ## Claims -/

/-- C9.  Verbatim relay with silent drop: an inbound offer, answer or
ice-candidate message is forwarded, with its data payload unchanged and
with the same type, to exactly the channel of the peer the registry
returns for the sender, when one exists; when the registry returns no
peer the handler sends nothing at all, returns no error to the sender,
leaves the registry unchanged, and does not close the connection. -/
theorem relay_verbatim_or_drop (cfg : Config) (t : Nat) (s : RoomMap) (cd : Client)
    (d : String) :
    handleMessage cfg t s cd (.offer d) =
      { rooms := s, client := cd,
        sent := match getPeer s cd with
          | some peer => [(peer.id, OutMsg.offer d)]
          | none => [],
        closed := false } ∧
    handleMessage cfg t s cd (.answer d) =
      { rooms := s, client := cd,
        sent := match getPeer s cd with
          | some peer => [(peer.id, OutMsg.answer d)]
          | none => [],
        closed := false } ∧
    handleMessage cfg t s cd (.iceCandidate d) =
      { rooms := s, client := cd,
        sent := match getPeer s cd with
          | some peer => [(peer.id, OutMsg.iceCandidate d)]
          | none => [],
        closed := false } := by
  rcases hp : getPeer s cd with _ | peer <;>
    simp [handleMessage, handleMessageBody, hp]

/-- C10.  Removal of an occupant whose access code maps to no room in
the registry is a complete no-op: the map is returned unchanged and no
message is sent to any channel. -/
theorem removeClient_vanished_room_noop (s : RoomMap) (cd : Client)
    (h : mapGet s cd.pin = none) :
    removeClientFromRoom s cd = (s, []) := by
  simp [removeClientFromRoom, h]

/-- Witness for C10 at a concrete input. -/
theorem removeClient_vanished_room_noop_witness :
    mapGet [] "999999" = none ∧
    removeClientFromRoom [] { id := "x", pin := "999999" } = ([], []) :=
  ⟨rfl, removeClient_vanished_room_noop [] { id := "x", pin := "999999" } rfl⟩

/-- C7.  Session lookup idempotence: calling getOrCreateRoom twice for
the same valid code, with no intervening destruction, returns from the
second call the same room value and the same registry mapping that the
first call produced. -/
theorem getOrCreateRoom_idempotent (s : RoomMap) (pin : String) (t1 t2 : Nat)
    (_hpin : isValidPin pin = true) :
    getOrCreateRoom (getOrCreateRoom s pin t1).2 pin t2 =
      ((getOrCreateRoom s pin t1).1, (getOrCreateRoom s pin t1).2) := by
  rcases hm : mapGet s pin with _ | room
  · simp [getOrCreateRoom, hm, mapGet_mapSet_self]
  · simp [getOrCreateRoom, hm]

/-- Witness for C7 at a concrete input. -/
theorem getOrCreateRoom_idempotent_witness :
    isValidPin "482913" = true ∧
    getOrCreateRoom (getOrCreateRoom [] "482913" 7).2 "482913" 9 =
      ((getOrCreateRoom [] "482913" 7).1, (getOrCreateRoom [] "482913" 7).2) :=
  ⟨by decide, getOrCreateRoom_idempotent [] "482913" 7 9 (by decide)⟩

/-- C5.  Credential derivation and round-trip: for any connection id,
issuing a credential under a configured (nonempty) shared secret yields
expiry now plus 14400 seconds, username the decimal expiry followed by a
colon and the connection id, and credential the base64 of the HMAC-SHA1
of that username under the secret; hence recomputing the base64 HMAC of
the issued username reproduces the issued credential field, and the
expiresAt field is the timestamp embedded in the username. -/
theorem turn_credential_derivation (secret clientId : String) (now : Nat)
    (hs : secret ≠ "") :
    ∃ creds : TurnCredentials,
      generateTurnCredentials (some secret) clientId now = some creds ∧
      TURN_CREDENTIAL_TTL_SECONDS = 14400 ∧
      creds.expiresAt = now + TURN_CREDENTIAL_TTL_SECONDS ∧
      creds.username = toString creds.expiresAt ++ ":" ++ clientId ∧
      creds.credential =
        base64Encode (hmacSha1 (utf8Encode secret) (utf8Encode creds.username)) := by
  refine ⟨expectedTurnCredentials secret clientId now, ?_, rfl, rfl, rfl, rfl⟩
  simp [generateTurnCredentials, expectedTurnCredentials, strTruthy, hs]

/-- Witness for C5 at a concrete input. -/
theorem turn_credential_derivation_witness :
    ("0123456789abcdefghijklmnopqrstuv" : String) ≠ "" ∧
    ∃ creds : TurnCredentials,
      generateTurnCredentials (some "0123456789abcdefghijklmnopqrstuv")
        "client-1-1700000000000" 1700000000 = some creds ∧
      TURN_CREDENTIAL_TTL_SECONDS = 14400 ∧
      creds.expiresAt = 1700000000 + TURN_CREDENTIAL_TTL_SECONDS ∧
      creds.username = toString creds.expiresAt ++ ":" ++ "client-1-1700000000000" ∧
      creds.credential = base64Encode (hmacSha1
        (utf8Encode "0123456789abcdefghijklmnopqrstuv") (utf8Encode creds.username)) :=
  ⟨by decide,
    turn_credential_derivation "0123456789abcdefghijklmnopqrstuv"
      "client-1-1700000000000" 1700000000 (by decide)⟩

/-- C6.  Revocation TTL rule: with the store client available, a revoke
call whose remaining TTL (expiry minus now) is not positive issues no
store write at all, and one whose remaining TTL is positive issues
exactly one write, keyed by the username under the revocation namespace,
whose store TTL equals the remaining credential lifetime. -/
theorem revoke_ttl_rule (username : String) (expiresAt now : Int) :
    (expiresAt - now ≤ 0 → revokeTurnCredentials true username expiresAt now = []) ∧
    (0 < expiresAt - now →
      revokeTurnCredentials true username expiresAt now =
        [{ key := redisRevokedKeyBase ++ username, value := "1",
           ttlSeconds := expiresAt - now }]) := by
  constructor
  · intro h
    simp [revokeTurnCredentials, h]
  · intro h
    have h2 : ¬ (expiresAt - now ≤ 0) := not_le.mpr h
    simp [revokeTurnCredentials, h2]

/-- Witness for C6 at concrete inputs, one per branch. -/
theorem revoke_ttl_rule_witness :
    ((100 : Int) - 200 ≤ 0 ∧ revokeTurnCredentials true "u1" 100 200 = []) ∧
    ((0 : Int) < 500 - 200 ∧ revokeTurnCredentials true "u1" 500 200 =
      [{ key := redisRevokedKeyBase ++ "u1", value := "1", ttlSeconds := 500 - 200 }]) :=
  ⟨⟨by decide, (revoke_ttl_rule "u1" 100 200).1 (by decide)⟩,
   ⟨by decide, (revoke_ttl_rule "u1" 500 200).2 (by decide)⟩⟩

/-- C1.  Glare prevention: when two distinct connections join the same
valid code in sequence on a registry where that code has no session yet
(so both joins succeed), the whole trace of the two joins carries
exactly one peer-joined frame, addressed to the first-seated connection;
the second joiner receives none. -/
theorem glare_peer_joined_first_only (cfg : Config) (t1 t2 : Nat) (s : RoomMap)
    (ia pa ib pb pin : String)
    (hpin : isValidPin pin = true) (hfresh : mapGet s pin = none) (hne : ia ≠ ib) :
    peerJoinedFrames
        ((handleMessage cfg t1 s { id := ia, pin := pa } (.joinPin (some pin))).sent ++
          (handleMessage cfg t2
              (handleMessage cfg t1 s { id := ia, pin := pa } (.joinPin (some pin))).rooms
              { id := ib, pin := pb } (.joinPin (some pin))).sent) =
      [(ia, OutMsg.peerJoined)] := by
  rw [join_fresh cfg t1 s { id := ia, pin := pa } pin hpin hfresh]
  rw [join_second cfg t2
    (mapSet s pin { pin := pin, clients := [{ id := ia, pin := pin }], createdAt := t1 })
    pin ia ib pb t1 hpin (mapGet_mapSet_self s pin _) hne]
  simp [peerJoinedFrames, isPeerJoined]

/-- Witness for C1 at a concrete input. -/
theorem glare_peer_joined_first_only_witness :
    isValidPin "123456" = true ∧ mapGet [] "123456" = none ∧ ("a" : String) ≠ "b" ∧
    peerJoinedFrames
        ((handleMessage cfg0 0 [] { id := "a", pin := "" } (.joinPin (some "123456"))).sent ++
          (handleMessage cfg0 1
              (handleMessage cfg0 0 [] { id := "a", pin := "" } (.joinPin (some "123456"))).rooms
              { id := "b", pin := "" } (.joinPin (some "123456"))).sent) =
      [("a", OutMsg.peerJoined)] :=
  ⟨by decide, rfl, by decide,
    glare_peer_joined_first_only cfg0 0 1 [] "a" "" "b" "" "123456" (by decide) rfl (by decide)⟩

/-- C2 counterexample.  In the concrete two-party session on PIN 123456,
connection b sends an explicit leave (delivering one peer-left to a) and
then its transport closes (the usual browser behavior); the close path
runs removal again, finds one occupant remaining, and delivers a second
peer-left to a — so the remaining first occupant receives two peer-left
frames, not exactly one. -/
theorem leave_then_close_double_peer_left :
    demoLeaveB.sent = [("a", OutMsg.peerLeft)] ∧
    demoCloseB.2 = [("a", OutMsg.peerLeft)] ∧
    peerLeftFrames (demoLeaveB.sent ++ demoCloseB.2) =
      [("a", OutMsg.peerLeft), ("a", OutMsg.peerLeft)] :=
  ⟨rfl, rfl, rfl⟩

/-- C2 as amended.  Either single teardown path of the second occupant —
an explicit leave, or an abrupt transport close — delivers exactly one
peer-left frame to the remaining first occupant and leaves the session
holding only that occupant; once the last occupant departs, the session
is deleted from the registry with no notification.  However, an explicit
leave followed by the same connection transport close delivers a second
peer-left to the remaining occupant, because removal notifies whenever
exactly one occupant remains after the call, even when nothing was
removed. -/
theorem teardown_peer_left_and_delete (cfg : Config) (t : Nat) (s : RoomMap)
    (pin ia ib : String) (t0 : Nat)
    (hroom : mapGet s pin =
      some { pin := pin, clients := [{ id := ia, pin := pin }, { id := ib, pin := pin }], createdAt := t0 })
    (hne : ia ≠ ib) (hnodup : (s.map Prod.fst).Nodup) :
    (handleMessage cfg t s { id := ib, pin := pin } .leave =
      { rooms := mapSet s pin { pin := pin, clients := [{ id := ia, pin := pin }], createdAt := t0 },
        client := { id := ib, pin := pin },
        sent := [(ia, OutMsg.peerLeft)], closed := false }) ∧
    (handleClose s { id := ib, pin := pin } =
      (mapSet s pin { pin := pin, clients := [{ id := ia, pin := pin }], createdAt := t0 },
        [(ia, OutMsg.peerLeft)])) ∧
    (handleClose (mapSet s pin { pin := pin, clients := [{ id := ia, pin := pin }], createdAt := t0 })
        { id := ib, pin := pin } =
      (mapSet s pin { pin := pin, clients := [{ id := ia, pin := pin }], createdAt := t0 },
        [(ia, OutMsg.peerLeft)])) ∧
    ((removeClientFromRoom
        (mapSet s pin { pin := pin, clients := [{ id := ia, pin := pin }], createdAt := t0 })
        { id := ia, pin := pin }).2 = [] ∧
      mapGet (removeClientFromRoom
        (mapSet s pin { pin := pin, clients := [{ id := ia, pin := pin }], createdAt := t0 })
        { id := ia, pin := pin }).1 pin = none) := by
  have h2 := removeClientFromRoom_second s pin ia ib t0 hroom hne
  have habs := removeClientFromRoom_absent
    (mapSet s pin { pin := pin, clients := [{ id := ia, pin := pin }], createdAt := t0 })
    pin ia ib t0 (mapGet_mapSet_self s pin _) hne
  have hlast := removeClientFromRoom_last
    (mapSet s pin { pin := pin, clients := [{ id := ia, pin := pin }], createdAt := t0 })
    pin ia t0 (mapGet_mapSet_self s pin _) (nodup_keys_mapSet hnodup)
  refine ⟨?_, ?_, ?_, hlast⟩
  · simp [handleMessage, handleMessageBody, h2]
  · simp [handleClose, h2]
  · simp [handleClose, habs]

/-- Witness for the amended C2 at a concrete input. -/
theorem teardown_peer_left_and_delete_witness :
    mapGet demoJoinB.rooms "123456" = some roomAB ∧ ("a" : String) ≠ "b" ∧
    (handleMessage cfg0 2 demoJoinB.rooms clB .leave =
      { rooms := mapSet demoJoinB.rooms "123456" roomA, client := clB,
        sent := [("a", OutMsg.peerLeft)], closed := false }) ∧
    (handleClose demoJoinB.rooms clB =
      (mapSet demoJoinB.rooms "123456" roomA, [("a", OutMsg.peerLeft)])) ∧
    (handleClose (mapSet demoJoinB.rooms "123456" roomA) clB =
      (mapSet demoJoinB.rooms "123456" roomA, [("a", OutMsg.peerLeft)])) ∧
    ((removeClientFromRoom (mapSet demoJoinB.rooms "123456" roomA) clA).2 = [] ∧
      mapGet (removeClientFromRoom (mapSet demoJoinB.rooms "123456" roomA) clA).1
        "123456" = none) :=
  ⟨rfl, by decide,
    teardown_peer_left_and_delete cfg0 2 demoJoinB.rooms "123456" "a" "b" 0
      rfl (by decide) (by decide)⟩

/-- C3 counterexample.  Input that fails JSON.parse raises a
SyntaxError, which is none of the three SignalingError classes the catch
clause closes on: the connection receives an error frame carrying the
raw parser message — not the InvalidMessage error text — and is not
closed with the policy-violation status. -/
theorem malformed_json_no_close :
    (handleMessage cfg0 0 [] { id := "a", pin := "" }
        (.parseFailure "Unexpected end of JSON input")).sent =
      [("a", OutMsg.error "Unexpected end of JSON input")] ∧
    (handleMessage cfg0 0 [] { id := "a", pin := "" }
        (.parseFailure "Unexpected end of JSON input")).closed = false :=
  ⟨rfl, rfl⟩

/-- C3 as amended.  No malformed inbound message is dropped without
telling the sender: a message with a missing type field or an unknown
type produces an error frame carrying the InvalidMessage text and the
connection is closed with the policy-violation status; input that fails
to parse as JSON produces an error frame carrying the parser message,
but the connection is left open, since a SyntaxError is not one of the
error classes the close test recognizes. -/
theorem malformed_message_error_policy (cfg : Config) (t : Nat) (s : RoomMap)
    (cd : Client) :
    (∀ m, handleMessage cfg t s cd (.parseFailure m) =
      { rooms := s, client := cd, sent := [(cd.id, OutMsg.error m)], closed := false }) ∧
    (handleMessage cfg t s cd .missingType =
      { rooms := s, client := cd,
        sent := [(cd.id, OutMsg.error "Invalid message: Missing message type")],
        closed := true }) ∧
    (∀ ty, handleMessage cfg t s cd (.unknownType ty) =
      { rooms := s, client := cd,
        sent := [(cd.id, OutMsg.error "Invalid message: Unknown message type")],
        closed := true }) :=
  ⟨fun _ => rfl, rfl, fun _ => rfl⟩

/-- C4 counterexample.  In the concrete scenario, connection c is
rejected from the full room with the RoomFull error and closed, and is
an occupant of no session — but its ClientData pin was assigned before
the occupancy check, so the offer it sends next is relayed to occupant
a of the full session. -/
theorem rejected_offer_still_relayed :
    demoJoinC.sent = [("c", OutMsg.error "Room 123456 is full (maximum 2 clients)")] ∧
    demoJoinC.closed = true ∧
    isOccupant demoJoinC.rooms "c" = false ∧
    isOccupant demoJoinC.rooms "a" = true ∧
    demoOfferC.sent = [("a", OutMsg.offer "sdp-offer")] :=
  ⟨rfl, rfl, rfl, rfl, rfl⟩

/-- C4 as amended.  A join naming a session that already holds two
occupants sends the joiner a RoomFull error, closes its connection with
the policy-violation status, leaves the registry unchanged, and seats
the rejected connection in no session; but because the connection pin
is recorded before the occupancy check, an offer the rejected connection
sends before closure takes effect is relayed to the first-seated
occupant of that session. -/
theorem room_full_rejection (cfg : Config) (t t2 : Nat) (s : RoomMap)
    (pin ia ib ic pc d : String) (t0 : Nat)
    (hroom : mapGet s pin =
      some { pin := pin, clients := [{ id := ia, pin := pin }, { id := ib, pin := pin }], createdAt := t0 })
    (hpin : isValidPin pin = true) (hne : ia ≠ ic)
    (hno : isOccupant s ic = false) :
    (handleMessage cfg t s { id := ic, pin := pc } (.joinPin (some pin)) =
      { rooms := s, client := { id := ic, pin := pin },
        sent := [(ic, OutMsg.error ("Room " ++ pin ++ " is full (maximum 2 clients)"))],
        closed := true }) ∧
    isOccupant (handleMessage cfg t s { id := ic, pin := pc } (.joinPin (some pin))).rooms
      ic = false ∧
    (handleMessage cfg t2 s { id := ic, pin := pin } (.offer d)).sent =
      [(ia, OutMsg.offer d)] ∧
    (handleMessage cfg t2 s { id := ic, pin := pin } (.answer d)).sent =
      [(ia, OutMsg.answer d)] ∧
    (handleMessage cfg t2 s { id := ic, pin := pin } (.iceCandidate d)).sent =
      [(ia, OutMsg.iceCandidate d)] := by
  have hempty := isValidPin_ne_empty hpin
  have hia : (ia == ic) = false := by simp [hne]
  have h1 : handleMessage cfg t s { id := ic, pin := pc } (.joinPin (some pin)) =
      { rooms := s, client := { id := ic, pin := pin },
        sent := [(ic, OutMsg.error ("Room " ++ pin ++ " is full (maximum 2 clients)"))],
        closed := true } := by
    simp [handleMessage, handleMessageBody, optStrFalsy, hempty, hpin, getOrCreateRoom,
      hroom, addClientToRoom, errorText, isCriticalError]
  refine ⟨h1, ?_, ?_, ?_, ?_⟩
  · rw [h1]
    exact hno
  · simp [handleMessage, handleMessageBody, getPeer, hroom, List.find?, hia]
  · simp [handleMessage, handleMessageBody, getPeer, hroom, List.find?, hia]
  · simp [handleMessage, handleMessageBody, getPeer, hroom, List.find?, hia]

/-- Witness for the amended C4 at a concrete input. -/
theorem room_full_rejection_witness :
    mapGet demoJoinB.rooms "123456" = some roomAB ∧
    isOccupant demoJoinB.rooms "c" = false ∧
    (handleMessage cfg0 2 demoJoinB.rooms { id := "c", pin := "" }
        (.joinPin (some "123456")) =
      { rooms := demoJoinB.rooms, client := { id := "c", pin := "123456" },
        sent := [("c", OutMsg.error ("Room " ++ "123456" ++ " is full (maximum 2 clients)"))],
        closed := true }) ∧
    isOccupant (handleMessage cfg0 2 demoJoinB.rooms { id := "c", pin := "" }
      (.joinPin (some "123456"))).rooms "c" = false ∧
    (handleMessage cfg0 3 demoJoinB.rooms { id := "c", pin := "123456" }
        (.offer "sdp-offer")).sent = [("a", OutMsg.offer "sdp-offer")] ∧
    (handleMessage cfg0 3 demoJoinB.rooms { id := "c", pin := "123456" }
        (.answer "sdp-offer")).sent = [("a", OutMsg.answer "sdp-offer")] ∧
    (handleMessage cfg0 3 demoJoinB.rooms { id := "c", pin := "123456" }
        (.iceCandidate "sdp-offer")).sent = [("a", OutMsg.iceCandidate "sdp-offer")] :=
  ⟨rfl, by decide,
    room_full_rejection cfg0 2 3 demoJoinB.rooms "123456" "a" "b" "c" "" "sdp-offer" 0
      rfl (by decide) (by decide) (by decide)⟩

/-- C8.  Occupancy bound invariant: in every registry state reachable by
any sequence of the registry operations, every room holds at most two
clients (and trivially at least zero); and addClientToRoom on a room
already holding two or more occupants returns false, as a value rather
than an exception, with the room unchanged. -/
theorem occupancy_bound_invariant (s : RoomMap) (hs : Reachable s) :
    (∀ pr ∈ s, pr.2.clients.length ≤ 2) ∧
    (∀ (room : Room) (c : Client), 2 ≤ room.clients.length →
      addClientToRoom room c = (false, room)) := by
  constructor
  · induction hs with
    | init =>
        intro pr hpr
        exact absurd hpr (List.not_mem_nil pr)
    | @step s0 t0 hprev hstep ih =>
        cases hstep with
        | create pin now =>
            intro pr hpr
            rcases hm : mapGet s0 pin with _ | room
            · simp only [getOrCreateRoom, hm] at hpr
              rcases mem_mapSet hpr with h1 | h2
              · rw [h1]
                show ([] : List Client).length ≤ 2
                simp
              · exact ih pr h2
            · simp only [getOrCreateRoom, hm] at hpr
              exact ih pr hpr
        | add pin c =>
            intro pr hpr
            rcases hm : mapGet s0 pin with _ | room
            · simp only [addOccupantStep, hm] at hpr
              exact ih pr hpr
            · simp only [addOccupantStep, hm] at hpr
              by_cases hlen : room.clients.length ≥ 2
              · simp only [addClientToRoom, if_pos hlen] at hpr
                exact ih pr hpr
              · simp only [addClientToRoom, if_neg hlen] at hpr
                rcases mem_mapSet hpr with h1 | h2
                · rw [h1]
                  show (room.clients ++ [c]).length ≤ 2
                  rw [List.length_append, List.length_cons, List.length_nil]
                  omega
                · exact ih pr h2
        | remove c =>
            intro pr hpr
            rcases hm : mapGet s0 c.pin with _ | room
            · simp only [removeClientFromRoom, hm] at hpr
              exact ih pr hpr
            · simp only [removeClientFromRoom, hm] at hpr
              have hroom := ih (c.pin, room) (mapGet_mem hm)
              have hlen := removeFirstById_length_le room.clients c.id
              by_cases hz : (removeFirstById room.clients c.id).length = 0
              · rw [if_pos hz] at hpr
                rcases mem_mapSet (mem_mapDelete hpr) with h1 | h2
                · rw [h1]
                  exact le_trans hlen hroom
                · exact ih pr h2
              · rw [if_neg hz] at hpr
                rcases mem_mapSet hpr with h1 | h2
                · rw [h1]
                  exact le_trans hlen hroom
                · exact ih pr h2
  · intro room c h
    simp [addClientToRoom, h]

/-- Witness for C8: the two-occupant scenario state is reachable, its
rooms respect the bound, and a third add on its full room returns false
without change. -/
theorem occupancy_bound_invariant_witness :
    (∀ pr ∈ demoJoinB.rooms, pr.2.clients.length ≤ 2) ∧
    (∀ (room : Room) (c : Client), 2 ≤ room.clients.length →
      addClientToRoom room c = (false, room)) := by
  have h0 : Reachable [] := Reachable.init
  have h1 := Reachable.step h0 (RegStep.create [] "123456" 0)
  have h2 := Reachable.step h1
    (RegStep.add (getOrCreateRoom [] "123456" 0).2 "123456" { id := "a", pin := "123456" })
  have h3 := Reachable.step h2
    (RegStep.add (addOccupantStep (getOrCreateRoom [] "123456" 0).2 "123456"
      { id := "a", pin := "123456" }) "123456" { id := "b", pin := "123456" })
  have heq : addOccupantStep (addOccupantStep (getOrCreateRoom [] "123456" 0).2 "123456"
      { id := "a", pin := "123456" }) "123456" { id := "b", pin := "123456" } =
      demoJoinB.rooms := by rfl
  rw [heq] at h3
  exact occupancy_bound_invariant demoJoinB.rooms h3

end Tuturu
